import Mathlib

/-!
Shallow embedding of the in-memory todo repository
(`src/repositories.rs`, `TodoRepositoryForMemory`).

The Rust store is a `HashMap<i32, Todo>` behind a lock; clones of the
repository are handles onto the same store.  We embed the store as an
association list with no duplicate keys (`AList`), which is exactly the
state space of a `HashMap`, and each repository method as a pure
function from the store to a result together with the successor store.
Rust `i32` ids are embedded as `Int`; the only arithmetic the code does
on ids is `(store.len() + 1) as i32`, which cannot overflow for any
store a process could hold, so no wrap-around modelling is needed for
the claims at hand.
-/

namespace RustTodo

/-- `struct Todo { id, text, completed }` from `repositories.rs`. -/
structure Todo where
  id : Int
  text : String
  completed : Bool
deriving DecidableEq, Repr

/-- `struct CreateTodo { text }`. -/
structure CreateTodo where
  text : String
deriving DecidableEq, Repr

/-- `struct UpdateTodo { text: Option<String>, completed: Option<bool> }`. -/
structure UpdateTodo where
  text : Option String
  completed : Option Bool
deriving DecidableEq, Repr

/-- `Todo::new(id, text)`: constructs a todo with `completed = false`. -/
def Todo.new (id : Int) (text : String) : Todo :=
  { id := id, text := text, completed := false }

/-- `enum RepositoryError { NotFound(i32) }`. -/
inductive RepositoryError where
  | NotFound : Int → RepositoryError
deriving DecidableEq, Repr

/-- `type TodoDatas = HashMap<i32, Todo>`: a finite map from ids to todos. -/
abbrev TodoDatas := AList (fun _ : Int => Todo)

/-- `store.len()`. -/
def storeLen (s : TodoDatas) : Nat :=
  s.entries.length

/-- `fn create(&self, payload: CreateTodo) -> Todo`:
`let id = (store.len() + 1) as i32; let todo = Todo::new(id, payload.text);
store.insert(id, todo.clone()); todo`. -/
def create (s : TodoDatas) (payload : CreateTodo) : Todo × TodoDatas :=
  let id : Int := (storeLen s : Int) + 1
  let todo := Todo.new id payload.text
  (todo, s.insert id todo)

/-- `fn find(&self, id: i32) -> Option<Todo>`: `store.get(&id).cloned()`. -/
def find (s : TodoDatas) (id : Int) : Option Todo :=
  s.lookup id

/-- `fn all(&self) -> Vec<Todo>`: clones of every stored value. -/
def all (s : TodoDatas) : List Todo :=
  s.entries.map Sigma.snd

/-- `fn update(&self, id, payload: UpdateTodo) -> anyhow::Result<Todo>`:
look up `id` (`NotFound` if absent), take `payload.text.unwrap_or(old.text)`
and `payload.completed.unwrap_or(old.completed)`, insert the rebuilt todo
under the same id.  The second component is the store after the call. -/
def update (s : TodoDatas) (id : Int) (payload : UpdateTodo) :
    Except RepositoryError Todo × TodoDatas :=
  match s.lookup id with
  | none => (Except.error (RepositoryError.NotFound id), s)
  | some todo =>
      let text := payload.text.getD todo.text
      let completed := payload.completed.getD todo.completed
      let todo : Todo := { id := id, text := text, completed := completed }
      (Except.ok todo, s.insert id todo)

/-- `fn delete(&self, id) -> anyhow::Result<()>`:
`store.remove(&id).ok_or(NotFound(id))`.  The second component is the
store after the call. -/
def delete (s : TodoDatas) (id : Int) :
    Except RepositoryError Unit × TodoDatas :=
  match s.lookup id with
  | none => (Except.error (RepositoryError.NotFound id), s)
  | some _ => (Except.ok (), s.erase id)

/-- One repository call, for reasoning about operation sequences. -/
inductive Op where
  | createOp : CreateTodo → Op
  | updateOp : Int → UpdateTodo → Op
  | deleteOp : Int → Op
deriving DecidableEq, Repr

/-- The store after one operation (results discarded). -/
def applyOp (s : TodoDatas) : Op → TodoDatas
  | Op.createOp p => (create s p).2
  | Op.updateOp i p => (update s i p).2
  | Op.deleteOp i => (delete s i).2

/-- The store after a sequence of operations. -/
def run (s : TodoDatas) : List Op → TodoDatas
  | [] => s
  | op :: ops => run (applyOp s op) ops

/-- The ids handed out by the `create` calls of a sequence, in order. -/
def createdIds (s : TodoDatas) : List Op → List Int
  | [] => []
  | Op.createOp p :: ops => (create s p).1.id :: createdIds (create s p).2 ops
  | Op.updateOp i p :: ops => createdIds (update s i p).2 ops
  | Op.deleteOp i :: ops => createdIds (delete s i).2 ops

/-- Whether an operation is a delete. -/
def Op.isDelete : Op → Bool
  | Op.deleteOp _ => true
  | _ => false

/-- A sequence with no delete operation. -/
def deleteFree (ops : List Op) : Bool :=
  ops.all (fun op => ! op.isDelete)

/-- Key–id coherence: every stored value's `id` field equals its key. -/
def Coherent (s : TodoDatas) : Prop :=
  ∀ k t, s.lookup k = some t → t.id = k

/-- The keys of a delete-free reachable store are exactly `1 .. storeLen`. -/
def keysInv (s : TodoDatas) : Prop :=
  ∀ k : Int, k ∈ s ↔ 1 ≤ k ∧ k ≤ (storeLen s : Int)

/-- A one-element store reached by a single create, used to instantiate
theorems with hypotheses at a concrete input. -/
def sampleStore : TodoDatas :=
  run ∅ [Op.createOp (CreateTodo.mk "a")]

/-- A store reached by create, create, delete 1: one entry left, under key 2. -/
def gapStore : TodoDatas :=
  run ∅ [Op.createOp (CreateTodo.mk "a"), Op.createOp (CreateTodo.mk "b"), Op.deleteOp 1]

/-! ### Helper lemmas about the store operations -/

theorem storeLen_insert_of_not_mem {a : Int} {b : Todo} {s : TodoDatas}
    (h : a ∉ s) : storeLen (s.insert a b) = storeLen s + 1 := by
  unfold storeLen
  rw [AList.insert_entries_of_neg h]
  rfl

theorem length_kerase_add_one {a : Int} {l : List (Sigma fun _ : Int => Todo)}
    (h : a ∈ l.keys) : (List.kerase a l).length + 1 = l.length := by
  obtain ⟨b, hb⟩ := List.exists_of_mem_keys h
  exact List.length_eraseP_add_one hb (by simp)

theorem storeLen_insert_of_mem {a : Int} {b : Todo} {s : TodoDatas}
    (h : a ∈ s) : storeLen (s.insert a b) = storeLen s := by
  have hlen := length_kerase_add_one (AList.mem_keys.mp h)
  simp only [storeLen, AList.insert_entries, List.length_cons]
  omega

theorem lookup_update_snd {s : TodoDatas} {id : Int} {p : UpdateTodo} {t : Todo}
    (h : s.lookup id = some t) :
    (update s id p).2 =
      s.insert id { id := id, text := p.text.getD t.text,
                    completed := p.completed.getD t.completed } := by
  simp [update, h]

theorem update_snd_of_none {s : TodoDatas} {id : Int} {p : UpdateTodo}
    (h : s.lookup id = none) : (update s id p).2 = s := by
  simp [update, h]

theorem coherent_empty : Coherent ∅ := by
  intro k t h
  simp [AList.lookup_empty] at h

theorem coherent_insert_self {s : TodoDatas} {a : Int} {t : Todo}
    (hs : Coherent s) (ht : t.id = a) : Coherent (s.insert a t) := by
  intro k u hu
  by_cases hk : k = a
  · subst hk
    rw [AList.lookup_insert] at hu
    cases hu
    exact ht
  · rw [AList.lookup_insert_ne hk] at hu
    exact hs k u hu

theorem coherent_applyOp {s : TodoDatas} (hs : Coherent s) (op : Op) :
    Coherent (applyOp s op) := by
  cases op with
  | createOp p =>
      exact coherent_insert_self hs rfl
  | updateOp i p =>
      cases h : s.lookup i with
      | none => simpa [applyOp, update_snd_of_none h] using hs
      | some t =>
          simp only [applyOp, lookup_update_snd h]
          exact coherent_insert_self hs rfl
  | deleteOp i =>
      cases h : s.lookup i with
      | none => simpa [applyOp, delete, h] using hs
      | some t =>
          simp only [applyOp, delete, h]
          intro k u hu
          by_cases hk : k = i
          · subst hk
            rw [AList.lookup_erase] at hu
            exact absurd hu (by simp)
          · rw [AList.lookup_erase_ne hk] at hu
            exact hs k u hu

theorem coherent_run {s : TodoDatas} (hs : Coherent s) (ops : List Op) :
    Coherent (run s ops) := by
  induction ops generalizing s with
  | nil => exact hs
  | cons op ops ih => exact ih (coherent_applyOp hs op)

theorem create_fst (s : TodoDatas) (p : CreateTodo) :
    (create s p).1 = Todo.new ((storeLen s : Int) + 1) p.text :=
  rfl

theorem id_new (i : Int) (text : String) : (Todo.new i text).id = i :=
  rfl

theorem create_snd (s : TodoDatas) (p : CreateTodo) :
    (create s p).2 =
      s.insert ((storeLen s : Int) + 1) (Todo.new ((storeLen s : Int) + 1) p.text) :=
  rfl

theorem mem_of_lookup_eq_some {s : TodoDatas} {i : Int} {t : Todo}
    (h : s.lookup i = some t) : i ∈ s := by
  by_contra hi
  rw [AList.lookup_eq_none.mpr hi] at h
  exact Option.noConfusion h

theorem keysInv_empty : keysInv ∅ := by
  intro k
  constructor
  · intro hk
    exact absurd hk (AList.not_mem_empty k)
  · intro hk
    have : storeLen (∅ : TodoDatas) = 0 := rfl
    rw [this] at hk
    omega

theorem keysInv_create {s : TodoDatas} (hs : keysInv s) (p : CreateTodo) :
    keysInv (create s p).2 ∧ storeLen (create s p).2 = storeLen s + 1 := by
  have hfresh : ((storeLen s : Int) + 1) ∉ s := by
    intro hm
    have := (hs _).mp hm
    omega
  have hlen : storeLen (create s p).2 = storeLen s + 1 := by
    rw [create_snd]
    exact storeLen_insert_of_not_mem hfresh
  refine ⟨?_, hlen⟩
  intro k
  rw [hlen, create_snd, AList.mem_insert, hs k]
  push_cast
  omega

theorem keysInv_update {s : TodoDatas} (hs : keysInv s) (i : Int) (p : UpdateTodo) :
    keysInv (update s i p).2 ∧ storeLen (update s i p).2 = storeLen s := by
  cases h : s.lookup i with
  | none =>
      rw [update_snd_of_none h]
      exact ⟨hs, rfl⟩
  | some t =>
      have hi : i ∈ s := mem_of_lookup_eq_some h
      have hlen : storeLen (update s i p).2 = storeLen s := by
        rw [lookup_update_snd h]
        exact storeLen_insert_of_mem hi
      refine ⟨?_, hlen⟩
      intro k
      rw [hlen, lookup_update_snd h, AList.mem_insert]
      constructor
      · rintro (rfl | hk)
        · exact (hs k).mp hi
        · exact (hs k).mp hk
      · intro hk
        exact Or.inr ((hs k).mpr hk)

theorem run_deleteFree :
    ∀ ops : List Op, deleteFree ops = true → ∀ s : TodoDatas, keysInv s →
      keysInv (run s ops) ∧
      (∀ i ∈ createdIds s ops, (storeLen s : Int) < i) ∧
      (createdIds s ops).Nodup := by
  intro ops
  induction ops with
  | nil =>
      intro _ s hs
      exact ⟨hs, by simp [createdIds], by simp [createdIds]⟩
  | cons op ops ih =>
      intro hdf s hs
      rw [deleteFree, List.all_cons, Bool.and_eq_true] at hdf
      obtain ⟨hop, hops⟩ := hdf
      cases op with
      | createOp p =>
          obtain ⟨hinv, hlen⟩ := keysInv_create hs p
          obtain ⟨h1, h2, h3⟩ := ih hops (create s p).2 hinv
          refine ⟨h1, ?_, ?_⟩
          · intro i hi
            rcases List.mem_cons.mp hi with rfl | hi
            · rw [create_fst]
              show (storeLen s : Int) < (storeLen s : Int) + 1
              omega
            · have := h2 i hi
              rw [hlen] at this
              push_cast at this
              omega
          · refine List.nodup_cons.mpr ⟨?_, h3⟩
            intro hmem
            have := h2 _ hmem
            rw [hlen, create_fst, id_new] at this
            push_cast at this
            omega
      | updateOp i p =>
          obtain ⟨hinv, hlen⟩ := keysInv_update hs i p
          obtain ⟨h1, h2, h3⟩ := ih hops (update s i p).2 hinv
          refine ⟨h1, ?_, h3⟩
          intro j hj
          have := h2 j hj
          rw [hlen] at this
          exact this
      | deleteOp i =>
          simp [Op.isDelete] at hop

/-! ### Claim theorems -/

/-- C3: for every store state and payload, `create` returns a todo whose id is
`(number of stored entries) + 1`, whose text is the payload's text and whose
`completed` is `false`, and stores exactly that todo under that id. -/
theorem create_id_text_completed (s : TodoDatas) (p : CreateTodo) :
    (create s p).1.id = (storeLen s : Int) + 1 ∧
    (create s p).1.text = p.text ∧
    (create s p).1.completed = false ∧
    (create s p).2.lookup ((storeLen s : Int) + 1) = some (create s p).1 := by
  refine ⟨rfl, rfl, rfl, ?_⟩
  rw [create_snd, create_fst]
  exact AList.lookup_insert s

/-- C6: for every store state and text, `create` followed by `find` at the
returned id yields exactly the created todo, whose `completed` is `false`. -/
theorem create_then_find_roundtrip (s : TodoDatas) (text : String) :
    find (create s (CreateTodo.mk text)).2 (create s (CreateTodo.mk text)).1.id =
      some (create s (CreateTodo.mk text)).1 ∧
    (create s (CreateTodo.mk text)).1.completed = false := by
  refine ⟨?_, rfl⟩
  unfold find
  rw [create_snd, create_fst, id_new]
  exact AList.lookup_insert s

/-- C7: deleting the same id twice always fails with `NotFound` on the second
call, and the store after both calls equals the store after the first. -/
theorem delete_twice_idempotent (s : TodoDatas) (i : Int) :
    (delete (delete s i).2 i).1 = Except.error (RepositoryError.NotFound i) ∧
    (delete (delete s i).2 i).2 = (delete s i).2 := by
  cases h : s.lookup i with
  | none =>
      have h2 : (delete s i).2 = s := by simp [delete, h]
      rw [h2]
      simp [delete, h]
  | some t =>
      have h2 : (delete s i).2 = s.erase i := by simp [delete, h]
      rw [h2]
      have hnone : (s.erase i).lookup i = none := AList.lookup_erase i s
      simp [delete, hnone]

/-- C4: updating a present id succeeds, producing the todo whose text and
completed come from the payload when present and from the stored todo
otherwise, with the id unchanged; every other key of the store is untouched. -/
theorem update_partial_frame (s : TodoDatas) (i : Int) (p : UpdateTodo) (t : Todo)
    (h : s.lookup i = some t) :
    (update s i p).1 = Except.ok
      { id := i, text := p.text.getD t.text, completed := p.completed.getD t.completed } ∧
    (update s i p).2.lookup i = some
      { id := i, text := p.text.getD t.text, completed := p.completed.getD t.completed } ∧
    ∀ k, k ≠ i → (update s i p).2.lookup k = s.lookup k := by
  refine ⟨by simp [update, h], ?_, ?_⟩
  · rw [lookup_update_snd h]
    exact AList.lookup_insert s
  · intro k hk
    rw [lookup_update_snd h]
    exact AList.lookup_insert_ne hk

/-- C4 witness: a concrete partial update (`text` absent, `completed = true`)
on the one-element store keeps the prior text and touches no other key. -/
theorem update_partial_frame_witness :
    sampleStore.lookup 1 = some (Todo.new 1 "a") ∧
    (update sampleStore 1 (UpdateTodo.mk none (some true))).1 =
      Except.ok (Todo.mk 1 "a" true) ∧
    (update sampleStore 1 (UpdateTodo.mk none (some true))).2.lookup 1 =
      some (Todo.mk 1 "a" true) ∧
    (update sampleStore 1 (UpdateTodo.mk none (some true))).2.lookup 7 =
      sampleStore.lookup 7 :=
  ⟨by decide,
   (update_partial_frame sampleStore 1 (UpdateTodo.mk none (some true))
      (Todo.new 1 "a") (by decide)).1,
   (update_partial_frame sampleStore 1 (UpdateTodo.mk none (some true))
      (Todo.new 1 "a") (by decide)).2.1,
   (update_partial_frame sampleStore 1 (UpdateTodo.mk none (some true))
      (Todo.new 1 "a") (by decide)).2.2 7 (by decide)⟩

/-- C5: on an absent id, `update` (for every payload) and `delete` return
`NotFound` for that id and leave the store exactly as it was. -/
theorem update_delete_not_found (s : TodoDatas) (i : Int) (h : s.lookup i = none) :
    (∀ p : UpdateTodo, update s i p = (Except.error (RepositoryError.NotFound i), s)) ∧
    delete s i = (Except.error (RepositoryError.NotFound i), s) :=
  ⟨fun p => by simp [update, h], by simp [delete, h]⟩

/-- C5 witness: updating and deleting the absent id 5 on the one-element store
both fail with `NotFound 5` and return the store unchanged. -/
theorem update_delete_not_found_witness :
    sampleStore.lookup 5 = none ∧
    update sampleStore 5 (UpdateTodo.mk (some "x") none) =
      (Except.error (RepositoryError.NotFound 5), sampleStore) ∧
    delete sampleStore 5 = (Except.error (RepositoryError.NotFound 5), sampleStore) :=
  ⟨by decide,
   (update_delete_not_found sampleStore 5 (by decide)).1 (UpdateTodo.mk (some "x") none),
   (update_delete_not_found sampleStore 5 (by decide)).2⟩

/-- C1 counterexample: after create "a", create "b", delete 1, the store still
holds a todo with id 2, and the next create computes id `1 + 1 = 2` — the
"fresh" id equals the id of a todo already in the store, refuting freshness. -/
theorem create_id_collides_after_delete_cex :
    find gapStore 2 = some (Todo.new 2 "b") ∧
    (create gapStore (CreateTodo.mk "c")).1.id = 2 := by
  decide

/-- C1 (amended): `create` always succeeds and the returned todo is stored
under its id; the id is moreover distinct from the id of every stored todo
whenever the store was reached without deletions (after a delete it can
collide, as the counterexample shows). -/
theorem create_fresh_id_delete_free (ops : List Op) (p : CreateTodo)
    (hdf : deleteFree ops = true) :
    (∀ k t, (run ∅ ops).lookup k = some t → (create (run ∅ ops) p).1.id ≠ t.id) ∧
    (create (run ∅ ops) p).2.lookup (create (run ∅ ops) p).1.id =
      some (create (run ∅ ops) p).1 := by
  obtain ⟨hinv, -, -⟩ := run_deleteFree ops hdf ∅ keysInv_empty
  constructor
  · intro k t h heq
    have hk : t.id = k := coherent_run coherent_empty ops k t h
    have hrange := (hinv k).mp (mem_of_lookup_eq_some h)
    rw [create_fst, id_new] at heq
    omega
  · rw [create_snd, create_fst, id_new]
    exact AList.lookup_insert _

/-- C1 witness: on the store reached by one create, the next created id (2)
differs from the stored todo's id (1) and the new todo is stored under it. -/
theorem create_fresh_id_delete_free_witness :
    (create (run ∅ [Op.createOp (CreateTodo.mk "a")]) (CreateTodo.mk "b")).1.id ≠
      (Todo.new 1 "a").id ∧
    (create (run ∅ [Op.createOp (CreateTodo.mk "a")]) (CreateTodo.mk "b")).2.lookup
        (create (run ∅ [Op.createOp (CreateTodo.mk "a")]) (CreateTodo.mk "b")).1.id =
      some (create (run ∅ [Op.createOp (CreateTodo.mk "a")]) (CreateTodo.mk "b")).1 :=
  ⟨(create_fresh_id_delete_free [Op.createOp (CreateTodo.mk "a")] (CreateTodo.mk "b")
      (by decide)).1 1 (Todo.new 1 "a") (by decide),
   (create_fresh_id_delete_free [Op.createOp (CreateTodo.mk "a")] (CreateTodo.mk "b")
      (by decide)).2⟩

/-- C2 counterexample: running create "a", delete 1, create "b" from the empty
store hands out the id list `[1, 1]` — the second create reassigns the id 1
that the first create already assigned (and whose todo was deleted). -/
theorem created_id_reused_after_delete_cex :
    createdIds ∅
      [Op.createOp (CreateTodo.mk "a"), Op.deleteOp 1, Op.createOp (CreateTodo.mk "b")] =
      [1, 1] := by
  decide

/-- C2 (amended): in every delete-free sequence from the empty store no create
reassigns an id an earlier create handed out, and (for all sequences) no
operation changes the id field of a todo that remains stored under its key. -/
theorem created_ids_nodup_delete_free_and_id_stable :
    (∀ ops : List Op, deleteFree ops = true → (createdIds ∅ ops).Nodup) ∧
    (∀ (ops : List Op) (op : Op) (k : Int) (t u : Todo),
        (run ∅ ops).lookup k = some t →
        (applyOp (run ∅ ops) op).lookup k = some u → u.id = t.id) := by
  constructor
  · intro ops hdf
    exact (run_deleteFree ops hdf ∅ keysInv_empty).2.2
  · intro ops op k t u ht hu
    have h1 : t.id = k := coherent_run coherent_empty ops k t ht
    have h2 : u.id = k := coherent_applyOp (coherent_run coherent_empty ops) op k u hu
    rw [h1, h2]

/-- C2 witness: two creates hand out distinct ids, and an update leaves the id
field of the stored todo at key 1 unchanged. -/
theorem created_ids_nodup_delete_free_and_id_stable_witness :
    (createdIds ∅ [Op.createOp (CreateTodo.mk "a"), Op.createOp (CreateTodo.mk "b")]).Nodup ∧
    (Todo.mk 1 "a" true).id = (Todo.new 1 "a").id :=
  ⟨created_ids_nodup_delete_free_and_id_stable.1
     [Op.createOp (CreateTodo.mk "a"), Op.createOp (CreateTodo.mk "b")] (by decide),
   created_ids_nodup_delete_free_and_id_stable.2
     [Op.createOp (CreateTodo.mk "a")] (Op.updateOp 1 (UpdateTodo.mk none (some true))) 1
     (Todo.new 1 "a") (Todo.mk 1 "a" true) (by decide) (by decide)⟩

/-- C9: key–id coherence. In every store reachable from the empty store each
key maps to a todo whose id field equals that key, and every single operation
preserves coherence from any coherent store. -/
theorem run_key_id_coherent :
    (∀ (ops : List Op) (k : Int) (t : Todo), (run ∅ ops).lookup k = some t → t.id = k) ∧
    (∀ (s : TodoDatas) (op : Op), Coherent s → Coherent (applyOp s op)) :=
  ⟨fun ops k t h => coherent_run coherent_empty ops k t h,
   fun _ op hs => coherent_applyOp hs op⟩

/-- C9 witness: in the store reached by one create, key 1 holds a todo whose
id is 1, and one create step from the empty store preserves coherence. -/
theorem run_key_id_coherent_witness :
    (Todo.new 1 "a").id = 1 ∧
    Coherent (applyOp ∅ (Op.createOp (CreateTodo.mk "a"))) :=
  ⟨run_key_id_coherent.1 [Op.createOp (CreateTodo.mk "a")] 1 (Todo.new 1 "a") (by decide),
   run_key_id_coherent.2 ∅ (Op.createOp (CreateTodo.mk "a")) coherent_empty⟩

/-- C10: when the computed id `storeLen + 1` is already a key, `create`
overwrites the entry at that key with the newly constructed todo, leaves every
other key untouched, and leaves the number of stored entries unchanged. -/
theorem create_overwrite_on_collision (s : TodoDatas) (p : CreateTodo)
    (h : ((storeLen s : Int) + 1) ∈ s) :
    (create s p).2.lookup ((storeLen s : Int) + 1) =
      some (Todo.new ((storeLen s : Int) + 1) p.text) ∧
    storeLen (create s p).2 = storeLen s ∧
    ∀ k, k ≠ (storeLen s : Int) + 1 → (create s p).2.lookup k = s.lookup k := by
  refine ⟨?_, ?_, ?_⟩
  · rw [create_snd]
    exact AList.lookup_insert s
  · rw [create_snd]
    exact storeLen_insert_of_mem h
  · intro k hk
    rw [create_snd]
    exact AList.lookup_insert_ne hk

/-- C10 witness: on the store reached by create, create, delete 1 (one entry,
key 2), creating "c" overwrites key 2 with the new todo, keeps the entry count
at 1, and leaves the absent key 9 absent. -/
theorem create_overwrite_on_collision_witness :
    ((storeLen gapStore : Int) + 1) ∈ gapStore ∧
    (create gapStore (CreateTodo.mk "c")).2.lookup ((storeLen gapStore : Int) + 1) =
      some (Todo.new ((storeLen gapStore : Int) + 1) "c") ∧
    storeLen (create gapStore (CreateTodo.mk "c")).2 = storeLen gapStore ∧
    (create gapStore (CreateTodo.mk "c")).2.lookup 9 = gapStore.lookup 9 :=
  ⟨by decide,
   (create_overwrite_on_collision gapStore (CreateTodo.mk "c") (by decide)).1,
   (create_overwrite_on_collision gapStore (CreateTodo.mk "c") (by decide)).2.1,
   (create_overwrite_on_collision gapStore (CreateTodo.mk "c") (by decide)).2.2 9 (by decide)⟩

end RustTodo
